import Mathlib

/-!
# Verification of the recruiting-pipeline core

A shallow embedding of the candidate-pipeline core of the recruiting UI:
the Kanban collision resolver (`KanbanBoard.tsx`, `createKanbanCollisionDetection`),
the drag-end transition handler (`KanbanBoard.tsx`, `handleDragEnd`),
the display color projection (`KanbanBoard.tsx`, `getColorClass`),
the display sort of candidates (role page, `sortedCandidates`),
the interview-completion predicate (role page, `hasCompletedInterview`),
the checklist-completion view (`InterviewHelper.tsx`, `updateRequiredFields`),
the optimistic checklist toggle (`CandidateCard.tsx`, `handleChecklistToggle`),
the evaluation-chat send path (`EvaluationChat.tsx`, `handleSend`) and the
debounced conversation persister (role page, `useEffect` around `saveEvaluationChat`).

JavaScript optional / possibly-absent fields are embedded as `Option`;
JS truthiness of a string (non-empty) appears as `truthyStr`, and the JS
idiom `x || dflt` on strings appears as `jsOrStr`.
-/

/-- JS truthiness of an optional string: truthy iff present and non-empty. -/
def truthyStr (s : Option String) : Bool :=
  match s with
  | some v => v ≠ ""
  | none => false

/-- The JS idiom `x || dflt` for an optional string `x`:
falsy (absent or empty) falls back to the default. -/
def jsOrStr (s : Option String) (dflt : String) : String :=
  match s with
  | some v => if v = "" then dflt else v
  | none => dflt

/-! ## Collision resolver (`KanbanBoard.tsx`, `createKanbanCollisionDetection`) -/

/-- A dnd-kit collision record; only its `id` is inspected by the resolver. -/
structure Collision where
  id : String
deriving DecidableEq

/-- `COLUMN_IDS` from `KanbanBoard.tsx`. -/
def COLUMN_IDS : List String := ["outreach", "follow-up", "evaluation"]

/-- `isColumnId` from `createKanbanCollisionDetection`. -/
def isColumnId (id : String) : Bool := COLUMN_IDS.contains id

/-- The three-tier fallback (`allCollisions` in the source): the
rect-intersection collisions if non-empty, else the pointer-within
collisions if non-empty, else the closest-corners ranking.  The three
geometric detectors themselves are dnd-kit library functions; their
per-frame outputs are the three list arguments. -/
def tierCollisions (rects pointers corners : List Collision) : List Collision :=
  if rects.length > 0 then rects
  else if pointers.length > 0 then pointers
  else corners

/-- The resolver returned by `createKanbanCollisionDetection`, as a function
of the three tier outputs for the current frame and of
`getActiveColumn(active.id)` (an optional string; `none` models `undefined`,
and the empty string is JS-falsy, so both skip the cross-column branch). -/
def kanbanCollisionDetection (rects pointers corners : List Collision)
    (activeColumn : Option String) : List Collision :=
  let allCollisions := tierCollisions rects pointers corners
  if allCollisions.isEmpty then []
  else
    match activeColumn with
    | none => allCollisions
    | some col =>
      if col = "" then allCollisions
      else if allCollisions.any (fun c => isColumnId c.id) then
        let columnCollisions := allCollisions.filter (fun c => isColumnId c.id)
        let otherCollisions := allCollisions.filter (fun c => !(isColumnId c.id))
        match columnCollisions.find? (fun c => c.id != col) with
        | some target => target :: otherCollisions
        | none => allCollisions
      else allCollisions

/-! ## Candidate records and the drag-end transition (`handleDragEnd`) -/

/-- A candidate record as consumed by the board (fields that the verified
logic reads; all are optional in the `any`-typed JS records). -/
structure Candidate where
  id : String
  name : Option String
  column : Option String
  color : Option String
  sent_to_client : Option Bool
  not_pushing_forward : Option Bool
deriving DecidableEq

/-- `validColumns` from `handleDragEnd`. -/
def validColumns : List String := ["outreach", "follow-up", "evaluation"]

/-- Target-column resolution from `handleDragEnd`: `over.id` is either a
column id, or a candidate id whose own column is used (dropping on a card);
a missing target candidate or a falsy column aborts the drop. -/
def resolveTargetColumn (cands : List Candidate) (overId : String) : Option String :=
  if overId ∈ validColumns then some overId
  else
    match cands.find? (fun c => c.id == overId) with
    | none => none
    | some tc =>
      match tc.column with
      | none => none
      | some col => if col = "" then none else some col

/-- The color recomputation inside `handleDragEnd` (`newColor` starts as the
stored color and is overwritten per target column). -/
def applyColumnColor (color : Option String) (newColumn : String) : Option String :=
  if newColumn = "outreach" then some "amber-transparent"
  else if newColumn = "follow-up" then some "amber-solid"
  else if newColumn = "evaluation" then some "amber-solid"
  else color

/-- The body of the PUT `/status` request issued by `handleDragEnd`. -/
structure StatusPut where
  column : String
  color : Option String
deriving DecidableEq

/-- `handleDragEnd` from `KanbanBoard.tsx`, as the request it issues:
`none` means the handler returned without issuing any request (and hence
without touching any state). -/
def handleDragEnd (cands : List Candidate) (activeId : String)
    (over : Option String) : Option StatusPut :=
  match over with
  | none => none
  | some overId =>
    match resolveTargetColumn cands overId with
    | none => none
    | some newColumn =>
      match cands.find? (fun c => c.id == activeId) with
      | none => none
      | some candidate =>
        if candidate.column = some newColumn then none
        else some { column := newColumn, color := applyColumnColor candidate.color newColumn }

/-! ## Board color projection (`KanbanBoard.tsx`, `getColorClass`) -/

/-- `getColorClass` from `KanbanBoard.tsx`: status overrides first
(`sent_to_client` then `not_pushing_forward`), then column-based colors
with the outreach styling as the `default` branch. -/
def getColorClass (c : Candidate) : String :=
  if c.sent_to_client = some true then "bg-green-100 border-green-500"
  else if c.not_pushing_forward = some true then "bg-red-100 border-red-500"
  else if c.column = some "outreach" then "bg-slate-100 border-slate-400"
  else if c.column = some "follow-up" then "bg-amber-100 border-amber-500"
  else if c.column = some "evaluation" then "bg-blue-100 border-blue-500"
  else "bg-slate-100 border-slate-400"

/-! ## Display sort (role page, `sortedCandidates`) -/

/-- `COLUMN_ORDER` from the role page. -/
def COLUMN_ORDER (s : String) : Option Nat :=
  if s = "outreach" then some 0
  else if s = "follow-up" then some 1
  else if s = "evaluation" then some 2
  else none

/-- The column key used by the comparator: `a.column || 'outreach'`. -/
def candColumnKey (c : Candidate) : String := jsOrStr c.column "outreach"

/-- The rank used by the comparator: `COLUMN_ORDER[col] ?? 3`. -/
def candRank (c : Candidate) : Nat := (COLUMN_ORDER (candColumnKey c)).getD 3

/-- The name key used by the comparator: `a.name || ''`. -/
def candName (c : Candidate) : String := jsOrStr c.name ""

/-- `localeCompare`, modelled as lexicographic string comparison returning
a negative / zero / positive number. -/
def localeCompare (s t : String) : Int :=
  if s < t then -1 else if t < s then 1 else 0

/-- The comparator passed to `sort` on the role page. -/
def candCompare (a b : Candidate) : Int :=
  if candRank a ≠ candRank b then (candRank a : Int) - (candRank b : Int)
  else localeCompare (candName a) (candName b)

/-- Non-strict order induced by the comparator (`candCompare a b ≤ 0`). -/
def candLE (a b : Candidate) : Bool := candCompare a b ≤ 0

/-- `sortedCandidates` from the role page.  `Array.prototype.sort` is
required by the ECMAScript standard to be a stable sort consistent with the
comparator; it is modelled by the stable `List.mergeSort`. -/
def sortedCandidates (cands : List Candidate) : List Candidate :=
  cands.mergeSort candLE

/-- Column rank as the claim words it (unknown column value means rank 3,
only a missing column is treated as outreach).  Stated from the claim, for
comparison with `candRank`, which is taken from the source. -/
def specColumnRank (column : Option String) : Nat :=
  match column with
  | none => 0
  | some s =>
    if s = "outreach" then 0
    else if s = "follow-up" then 1
    else if s = "evaluation" then 2
    else 3

/-- The display order exactly as the claim words it: by `specColumnRank`
first, then by name.  Stated from the claim, for comparison with the
order realised by `sortedCandidates`. -/
def specSortLE (a b : Candidate) : Prop :=
  specColumnRank a.column < specColumnRank b.column ∨
    (specColumnRank a.column = specColumnRank b.column ∧ candName a ≤ candName b)

instance (a b : Candidate) : Decidable (specSortLE a b) := by
  unfold specSortLE; infer_instance

/-! ## Interview completion (role page, `hasCompletedInterview`) -/

/-- The fetched interview record (fields read by the completion predicate). -/
structure Interview where
  interview_completed : Option Bool
  transcription : Option String
  summary : Option String
deriving DecidableEq

/-- `hasCompletedInterview` from the role page selection grid:
`interview && (interview.interview_completed === true ||
!!(interview.transcription || interview.summary))`. -/
def hasCompletedInterview (interview : Option Interview) : Bool :=
  match interview with
  | none => false
  | some inv =>
    (inv.interview_completed == some true) ||
      (truthyStr inv.transcription || truthyStr inv.summary)

/-! ## Checklist completion view (`InterviewHelper.tsx`) -/

/-- The `RequiredField` triple of `InterviewHelper.tsx`. -/
structure RequiredField where
  field : String
  collected : Bool
  value : Option String
deriving DecidableEq

/-- The `requiredFields` initialisation in the `useEffect`:
one `{field, collected: false}` per declared requirement field, in order. -/
def initRequiredFields (fields : List String) : List RequiredField :=
  fields.map (fun f => { field := f, collected := false, value := none })

/-- The JS idiom `x || undefined`: an empty string becomes `undefined`. -/
def jsOrUndef (v : Option String) : Option String :=
  match v with
  | some s => if s = "" then none else some s
  | none => none

/-- `updateRequiredFields` from `InterviewHelper.tsx`: maps over the
previous triples, setting `collected = !!responses[field]` and
`value = responses[field] || undefined`.  The `responses` record is
embedded as a lookup function. -/
def updateRequiredFields (responses : String → Option String)
    (prev : List RequiredField) : List RequiredField :=
  prev.map (fun fd =>
    { fd with
      collected := truthyStr (responses fd.field),
      value := jsOrUndef (responses fd.field) })

/-! ## Optimistic checklist toggle (`CandidateCard.tsx`, `handleChecklistToggle`) -/

/-- `{ ...checklist, [item]: !checklist[item] }`: flip exactly one key. -/
def toggleItem (checklist : String → Bool) (item : String) : String → Bool :=
  fun k => if k = item then !(checklist item) else checklist k

/-- Outcome of one checklist toggle: the optimistic local state set before
the request, the full mapping sent in the PUT payload, and the local state
after the request settles (reverted on failure). -/
structure ToggleOutcome where
  optimistic : String → Bool
  payload : String → Bool
  final : String → Bool

/-- `handleChecklistToggle` from `CandidateCard.tsx`; `persistOk` is whether
the PUT succeeds (the `catch` branch reverts to the prior `checklist`). -/
def handleChecklistToggle (checklist : String → Bool) (item : String)
    (persistOk : Bool) : ToggleOutcome :=
  let newChecklist := toggleItem checklist item
  { optimistic := newChecklist
    payload := newChecklist
    final := if persistOk then newChecklist else checklist }

/-! ## Evaluation chat send path (`EvaluationChat.tsx`, `handleSend`) -/

/-- The JS builtin `String.prototype.trim`, modelled structurally:
whitespace stripped from both ends. -/
def jsTrim (s : String) : String :=
  String.mk (((s.data.dropWhile Char.isWhitespace).reverse.dropWhile
    Char.isWhitespace).reverse)

inductive ChatRole where
  | user
  | assistant
deriving DecidableEq

structure Message where
  role : ChatRole
  content : String
deriving DecidableEq

/-- Outcome of a successful `handleSend`: the new message list and the
message list handed synchronously to `onPersistMessages` (the immediate
flush), if any. -/
structure SendOutcome where
  newMessages : List Message
  persistNow : Option (List Message)
deriving DecidableEq

/-- The success path of `handleSend` in `EvaluationChat.tsx`: guard on
blank input or a send already in flight, append the trimmed user message,
then append the assistant reply and persist immediately.  `none` models an
early return (no send). -/
def handleSend (isLoading : Bool) (messages : List Message)
    (input : String) (reply : String) : Option SendOutcome :=
  if jsTrim input = "" || isLoading then none
  else
    let userMessage : Message := { role := ChatRole.user, content := jsTrim input }
    let messagesWithUser := messages ++ [userMessage]
    let assistantMessage : Message := { role := ChatRole.assistant, content := reply }
    let newMessages := messagesWithUser ++ [assistantMessage]
    some { newMessages := newMessages, persistNow := some newMessages }

/-- The PUT issued against the evaluation-chat resource. -/
structure PutChatRequest where
  roleId : String
  messages : List Message
deriving DecidableEq

/-- `persistEvaluationChatNow` from the role page: issues the PUT with the
full message list right away (no timer), guarded only on a falsy role id. -/
def persistEvaluationChatNow (roleId : Option String)
    (messages : List Message) : Option PutChatRequest :=
  match roleId with
  | none => none
  | some rid => if rid = "" then none else some { roleId := rid, messages := messages }

/-! ## Debounced conversation persister (role page `useEffect`)

The `useEffect` with dependencies `[role?.id, evaluationMessages]` arms a
400ms `setTimeout` flushing the current message list, and its cleanup
(`clearTimeout`) cancels the pending timer whenever the dependencies change.
`processMutations` replays a timestamped trace of message-list mutations
against that discipline: a pending timer whose deadline has passed fires
before the next mutation is processed; each mutation cancels any pending
timer and, when the role is present and the list non-empty, arms a fresh
timer carrying the mutated list; a timer still pending at the end of the
trace fires.  The returned list is the sequence of debounced flushes. -/
def processMutations (delay : Nat) (hasRole : Bool) :
    Option (Nat × List Message) → List (Nat × List Message) → List (List Message)
  | pending, [] =>
    match pending with
    | some (_, m) => [m]
    | none => []
  | pending, (t, m) :: rest =>
    let fired :=
      match pending with
      | some (d, p) => if d ≤ t then [p] else []
      | none => []
    let pendingNext := if hasRole && !m.isEmpty then some (t + delay, m) else none
    fired ++ processMutations delay hasRole pendingNext rest

/-! ## Theorems -/

/-- C2: if the drag resolves to a target column equal to the dragged
candidate's current column, `handleDragEnd` is a no-op: it issues no PUT
request, recomputes no color, and leaves the record unchanged (the handler
returns before the update block, modelled by the `none` result). -/
theorem handleDragEnd_noop (cands : List Candidate) (activeId overId : String)
    (c : Candidate) (ncol : String)
    (hres : resolveTargetColumn cands overId = some ncol)
    (hfind : cands.find? (fun x => x.id == activeId) = some c)
    (hsame : c.column = some ncol) :
    handleDragEnd cands activeId (some overId) = none := by
  simp [handleDragEnd, hres, hfind, hsame]

/-- Witness for C2: dropping a candidate onto its own column issues nothing. -/
theorem handleDragEnd_noop_witness :
    handleDragEnd
      [{ id := "a", name := some "A", column := some "outreach", color := none,
         sent_to_client := none, not_pushing_forward := none }]
      "a" (some "outreach") = none :=
  handleDragEnd_noop _ "a" "outreach"
    { id := "a", name := some "A", column := some "outreach", color := none,
      sent_to_client := none, not_pushing_forward := none }
    "outreach" (by decide) (by decide) (by decide)

/-- C4: the interview-completion predicate holds iff `interview_completed`
is exactly `true`, or the transcription is non-empty, or the summary is
non-empty; with no fetched interview record it never holds. -/
theorem hasCompletedInterview_iff :
    hasCompletedInterview none = false ∧
    ∀ inv : Interview, (hasCompletedInterview (some inv) = true ↔
      (inv.interview_completed = some true ∨
        (∃ t, inv.transcription = some t ∧ t ≠ "") ∨
        (∃ s, inv.summary = some s ∧ s ≠ ""))) := by
  refine ⟨rfl, fun inv => ?_⟩
  obtain ⟨ic, tr, su⟩ := inv
  cases tr <;> cases su <;>
    simp [hasCompletedInterview, truthyStr]

/-- Witness for C4: a record with only a non-empty summary counts as a
completed interview. -/
theorem hasCompletedInterview_iff_witness :
    hasCompletedInterview
      (some { interview_completed := none, transcription := none, summary := some "good" })
      = true :=
  (hasCompletedInterview_iff.2
      { interview_completed := none, transcription := none, summary := some "good" }).mpr
    (Or.inr (Or.inr ⟨"good", rfl, by decide⟩))

/-- C6: a successful `handleSend` hands the full message list, including
the fresh assistant reply, synchronously to the immediate-persist callback,
and `persistEvaluationChatNow` turns that straight into the PUT request —
no debounce timer is involved on this path. -/
theorem handleSend_immediate_persist (isLoading : Bool) (messages : List Message)
    (input reply : String) (out : SendOutcome) (rid : String)
    (hsend : handleSend isLoading messages input reply = some out) (hrid : rid ≠ "") :
    out.persistNow = some out.newMessages ∧
    out.newMessages = messages ++
      [{ role := ChatRole.user, content := jsTrim input },
       { role := ChatRole.assistant, content := reply }] ∧
    persistEvaluationChatNow (some rid) out.newMessages
      = some { roleId := rid, messages := out.newMessages } := by
  simp only [handleSend] at hsend
  split at hsend
  · cases hsend
  · cases hsend
    refine ⟨rfl, by simp, ?_⟩
    simp [persistEvaluationChatNow, hrid]

/-- Witness for C6: a concrete successful send immediately persists the
two appended messages. -/
theorem handleSend_immediate_persist_witness :
    ({ newMessages := [{ role := ChatRole.user, content := "hi" },
                       { role := ChatRole.assistant, content := "ok" }],
       persistNow := some [{ role := ChatRole.user, content := "hi" },
                           { role := ChatRole.assistant, content := "ok" }] } :
      SendOutcome).persistNow
      = some [{ role := ChatRole.user, content := "hi" },
              { role := ChatRole.assistant, content := "ok" }] :=
  (handleSend_immediate_persist false [] "hi" "ok" _ "r1" (by decide) (by decide)).1

/-- C7: the checklist completion view has exactly one triple per declared
requirement field, in declared order (position `i` of the view corresponds
to position `i` of the field list); a field is collected iff a same-named
response exists and is non-empty, and an absent or empty response yields
`collected = false` with no value. -/
theorem requiredFields_view_spec (fields : List String) (responses : String → Option String) :
    ((updateRequiredFields responses (initRequiredFields fields)).length = fields.length) ∧
    (∀ (i : Nat) (f : String), fields[i]? = some f →
      (updateRequiredFields responses (initRequiredFields fields))[i]? =
        some { field := f, collected := truthyStr (responses f),
               value := jsOrUndef (responses f) }) ∧
    (∀ f, truthyStr (responses f) = true ↔ ∃ v, responses f = some v ∧ v ≠ "") ∧
    (∀ f, truthyStr (responses f) = false → jsOrUndef (responses f) = none) ∧
    (∀ f v, jsOrUndef (responses f) = some v → responses f = some v ∧ v ≠ "") := by
  refine ⟨?_, ?_, ?_, ?_, ?_⟩
  · simp [updateRequiredFields, initRequiredFields]
  · intro i f hf
    simp [updateRequiredFields, initRequiredFields, List.getElem?_map, hf]
  · intro f
    cases h : responses f with
    | none => simp [truthyStr, h]
    | some v => simp [truthyStr, h]
  · intro f h
    cases hr : responses f with
    | none => simp [jsOrUndef, hr]
    | some v =>
      rw [hr] at h
      simp [truthyStr] at h
      simp [jsOrUndef, hr, h]
  · intro f v h
    cases hr : responses f with
    | none => simp [jsOrUndef, hr] at h
    | some w =>
      rw [hr] at h
      simp only [jsOrUndef] at h
      by_cases hw : w = ""
      · simp [hw] at h
      · simp [hw] at h
        subst h
        exact ⟨rfl, hw⟩

/-- Witness for C7: with fields `[Expected salary, Notice period]` and a
response only for the first, the view reports the first collected with its
value and the second not collected. -/
theorem requiredFields_view_spec_witness :
    ((updateRequiredFields
        (fun f => if f = "Expected salary" then some "50k" else none)
        (initRequiredFields ["Expected salary", "Notice period"]))[0]? =
      some { field := "Expected salary", collected := true, value := some "50k" }) ∧
    ((updateRequiredFields
        (fun f => if f = "Expected salary" then some "50k" else none)
        (initRequiredFields ["Expected salary", "Notice period"]))[1]? =
      some { field := "Notice period", collected := false, value := none }) := by
  have h := requiredFields_view_spec ["Expected salary", "Notice period"]
    (fun f => if f = "Expected salary" then some "50k" else none)
  constructor
  · rw [h.2.1 0 "Expected salary" (by decide)]; decide
  · rw [h.2.1 1 "Notice period" (by decide)]; decide

/-- C8: a checklist toggle optimistically flips exactly the named item
(every other key unchanged), sends the entire new mapping as the persisted
payload, and on persistence failure the local checklist is exactly the
prior value. -/
theorem checklistToggle_spec (checklist : String → Bool) (item : String) (persistOk : Bool) :
    ((handleChecklistToggle checklist item persistOk).optimistic item = !(checklist item)) ∧
    (∀ k, k ≠ item → (handleChecklistToggle checklist item persistOk).optimistic k = checklist k) ∧
    ((handleChecklistToggle checklist item persistOk).payload
      = (handleChecklistToggle checklist item persistOk).optimistic) ∧
    (persistOk = false → (handleChecklistToggle checklist item persistOk).final = checklist) ∧
    (persistOk = true →
      (handleChecklistToggle checklist item persistOk).final
        = (handleChecklistToggle checklist item persistOk).optimistic) := by
  refine ⟨?_, ?_, rfl, ?_, ?_⟩
  · simp [handleChecklistToggle, toggleItem]
  · intro k hk; simp [handleChecklistToggle, toggleItem, hk]
  · intro h; subst h; rfl
  · intro h; subst h; rfl

/-- Witness for C8: a failed toggle of `consent_form_sent` leaves the
checklist at its prior value, and the optimistic state leaves other keys
untouched. -/
theorem checklistToggle_spec_witness :
    ((handleChecklistToggle (fun _ => false) "consent_form_sent" false).final
        "consent_form_sent" = false) ∧
    ((handleChecklistToggle (fun _ => false) "consent_form_sent" false).optimistic
        "updated_cv_received" = false) := by
  have h := checklistToggle_spec (fun _ => false) "consent_form_sent" false
  exact ⟨congrFun (h.2.2.2.1 rfl) "consent_form_sent",
    h.2.1 "updated_cv_received" (by decide)⟩

/-- C10: the rendered board color class depends only on
`(sent_to_client, not_pushing_forward, column)` — the stored `color` field
is never consulted; `sent_to_client` wins over `not_pushing_forward` when
both are set; and an unknown or missing column gets the outreach styling. -/
theorem getColorClass_spec :
    (∀ c₁ c₂ : Candidate, c₁.sent_to_client = c₂.sent_to_client →
      c₁.not_pushing_forward = c₂.not_pushing_forward → c₁.column = c₂.column →
      getColorClass c₁ = getColorClass c₂) ∧
    (∀ c : Candidate, c.sent_to_client = some true →
      getColorClass c = "bg-green-100 border-green-500") ∧
    (∀ c : Candidate, c.sent_to_client = some true → c.not_pushing_forward = some true →
      getColorClass c = "bg-green-100 border-green-500") ∧
    (∀ c : Candidate, c.sent_to_client ≠ some true → c.not_pushing_forward ≠ some true →
      c.column ≠ some "follow-up" → c.column ≠ some "evaluation" →
      getColorClass c = "bg-slate-100 border-slate-400") := by
  refine ⟨?_, ?_, ?_, ?_⟩
  · intro c₁ c₂ h1 h2 h3
    simp only [getColorClass, h1, h2, h3]
  · intro c h; simp [getColorClass, h]
  · intro c h _; simp [getColorClass, h]
  · intro c h1 h2 h3 h4
    simp only [getColorClass, if_neg h1, if_neg h2]
    by_cases h5 : c.column = some "outreach"
    · simp [h5]
    · simp [h5, h3, h4]

/-- Witness for C10: two records differing only in the stored `color`
render the same class; green wins when both terminal flags are set; an
unknown column renders the outreach styling. -/
theorem getColorClass_spec_witness :
    (getColorClass
        { id := "a", name := none, column := some "follow-up", color := some "amber-solid",
          sent_to_client := none, not_pushing_forward := none }
      = getColorClass
        { id := "b", name := none, column := some "follow-up", color := none,
          sent_to_client := none, not_pushing_forward := none }) ∧
    (getColorClass
        { id := "c", name := none, column := some "evaluation", color := none,
          sent_to_client := some true, not_pushing_forward := some true }
      = "bg-green-100 border-green-500") ∧
    (getColorClass
        { id := "d", name := none, column := some "weird", color := none,
          sent_to_client := none, not_pushing_forward := none }
      = "bg-slate-100 border-slate-400") := by
  have h := getColorClass_spec
  exact ⟨h.1 _ _ rfl rfl rfl, h.2.2.1 _ rfl rfl,
    h.2.2.2 _ (by decide) (by decide) (by decide) (by decide)⟩

/-- C1: when the resolved collision list contains a column-level target
whose id differs from the dragged candidate's (non-empty) origin column,
the resolver partitions the collisions into column-level and card-level
targets and returns the first such differing column-level target promoted
to the front, followed by the card-level targets — so an empty destination
column with a differing origin is the top-priority target. -/
theorem crossColumn_promotes (rects pointers corners : List Collision) (col : String)
    (target : Collision) (hcol : col ≠ "")
    (hfind : ((tierCollisions rects pointers corners).filter
        (fun c => isColumnId c.id)).find? (fun c => c.id != col) = some target) :
    kanbanCollisionDetection rects pointers corners (some col) =
      target :: (tierCollisions rects pointers corners).filter (fun c => !(isColumnId c.id)) ∧
    isColumnId target.id = true ∧ target.id ≠ col := by
  have hmem : target ∈ (tierCollisions rects pointers corners).filter
      (fun c => isColumnId c.id) :=
    List.mem_of_find?_eq_some hfind
  have hne : target.id ≠ col := by
    have h := List.find?_some hfind
    simpa using h
  have hcolid : isColumnId target.id = true := by
    have h := (List.mem_filter.mp hmem).2
    simpa using h
  have hmem' : target ∈ tierCollisions rects pointers corners :=
    (List.mem_filter.mp hmem).1
  have hany : (tierCollisions rects pointers corners).any
      (fun c => isColumnId c.id) = true :=
    List.any_eq_true.mpr ⟨target, hmem', hcolid⟩
  have hnonempty : (tierCollisions rects pointers corners).isEmpty = false := by
    cases h : tierCollisions rects pointers corners with
    | nil => rw [h] at hmem'; cases hmem'
    | cons a l => simp
  refine ⟨?_, hcolid, hne⟩
  simp [kanbanCollisionDetection, hnonempty, hcol, hany, hfind]

/-- Witness for C1: dragging from `outreach` over a card and the
`follow-up` column promotes the `follow-up` column to the front. -/
theorem crossColumn_promotes_witness :
    kanbanCollisionDetection [⟨"cardY"⟩, ⟨"follow-up"⟩] [] [] (some "outreach") =
      Collision.mk "follow-up" ::
        (tierCollisions [⟨"cardY"⟩, ⟨"follow-up"⟩] [] []).filter
          (fun c => !(isColumnId c.id)) ∧
    isColumnId (Collision.mk "follow-up").id = true ∧
    (Collision.mk "follow-up").id ≠ "outreach" :=
  crossColumn_promotes [⟨"cardY"⟩, ⟨"follow-up"⟩] [] [] "outreach" ⟨"follow-up"⟩
    (by decide) (by decide)

/-- Counterexample to C3 as stated: with a non-empty rectangle-intersection
tier, the resolver does not return that tier's list — the cross-column
promotion reorders it (and drops non-promoted column entries), so the
returned list differs from the rectangle-intersection collisions. -/
theorem tierReturn_counterexample :
    ([⟨"cardY"⟩, ⟨"follow-up"⟩] : List Collision) ≠ [] ∧
    kanbanCollisionDetection [⟨"cardY"⟩, ⟨"follow-up"⟩] [] [] (some "outreach") ≠
      [⟨"cardY"⟩, ⟨"follow-up"⟩] := by
  decide

/-- C3 (amended): the resolver selects a working list — the
rectangle-intersection collisions when non-empty, else the pointer-within
collisions when non-empty, else the closest-corners ranking — and returns
it unchanged whenever the cross-column promotion does not apply (origin
column undefined or empty, or no differing column-level target found); the
returned list is empty exactly when all three tiers are empty (the drag is
treated as cancelled). -/
theorem tier_fallback_spec (rects pointers corners : List Collision)
    (activeColumn : Option String) :
    (kanbanCollisionDetection rects pointers corners activeColumn = [] ↔
      rects = [] ∧ pointers = [] ∧ corners = []) ∧
    (rects ≠ [] → tierCollisions rects pointers corners = rects) ∧
    (rects = [] → pointers ≠ [] → tierCollisions rects pointers corners = pointers) ∧
    (rects = [] → pointers = [] → tierCollisions rects pointers corners = corners) ∧
    ((activeColumn = none ∨ activeColumn = some "") →
      kanbanCollisionDetection rects pointers corners activeColumn =
        tierCollisions rects pointers corners) ∧
    (∀ col, activeColumn = some col → col ≠ "" →
      ((tierCollisions rects pointers corners).filter
          (fun c => isColumnId c.id)).find? (fun c => c.id != col) = none →
      kanbanCollisionDetection rects pointers corners activeColumn =
        tierCollisions rects pointers corners) := by
  have htier : tierCollisions rects pointers corners = [] ↔
      rects = [] ∧ pointers = [] ∧ corners = [] := by
    unfold tierCollisions
    split_ifs with h1 h2
    · have hr : rects ≠ [] := by
        intro h; rw [h] at h1; simp at h1
      simp [hr]
    · have hp : pointers ≠ [] := by
        intro h; rw [h] at h2; simp at h2
      simp [hp]
    · have hr : rects = [] := by
        cases rects with
        | nil => rfl
        | cons a l => simp at h1
      have hp : pointers = [] := by
        cases pointers with
        | nil => rfl
        | cons a l => simp at h2
      simp [hr, hp]
  refine ⟨?_, ?_, ?_, ?_, ?_, ?_⟩
  · constructor
    · intro h
      rw [← htier]
      by_contra hne
      have hnonempty : (tierCollisions rects pointers corners).isEmpty = false := by
        cases ht : tierCollisions rects pointers corners with
        | nil => exact absurd ht hne
        | cons a l => simp
      cases activeColumn with
      | none =>
        simp only [kanbanCollisionDetection, hnonempty, Bool.false_eq_true,
          if_false] at h
        exact hne h
      | some col =>
        simp only [kanbanCollisionDetection, hnonempty, Bool.false_eq_true,
          if_false] at h
        by_cases hcol : col = ""
        · rw [if_pos hcol] at h; exact hne h
        · rw [if_neg hcol] at h
          by_cases hany : (tierCollisions rects pointers corners).any
              (fun c => isColumnId c.id) = true
          · rw [if_pos hany] at h
            cases hf : ((tierCollisions rects pointers corners).filter
                (fun c => isColumnId c.id)).find? (fun c => c.id != col) with
            | none =>
              simp only [hf] at h
              exact hne h
            | some target =>
              simp only [hf] at h
              exact List.cons_ne_nil _ _ h
          · rw [if_neg hany] at h; exact hne h
    · intro h
      have ht : tierCollisions rects pointers corners = [] := htier.mpr h
      unfold kanbanCollisionDetection
      rw [ht]
      simp
  · intro h
    unfold tierCollisions
    rw [if_pos]
    cases rects with
    | nil => exact absurd rfl h
    | cons a l => simp
  · intro hr hp
    unfold tierCollisions
    rw [if_neg, if_pos]
    · cases pointers with
      | nil => exact absurd rfl hp
      | cons a l => simp
    · rw [hr]; simp
  · intro hr hp
    unfold tierCollisions
    rw [if_neg, if_neg]
    · rw [hp]; simp
    · rw [hr]; simp
  · intro h
    unfold kanbanCollisionDetection
    by_cases he : (tierCollisions rects pointers corners).isEmpty
    · rw [if_pos he]
      exact (List.isEmpty_iff.mp he).symm
    · rw [if_neg he]
      rcases h with h | h <;> rw [h]
      simp
  · intro col hcolv hcol hf
    subst hcolv
    by_cases he : (tierCollisions rects pointers corners).isEmpty
    · simp only [kanbanCollisionDetection, if_pos he]
      exact (List.isEmpty_iff.mp he).symm
    · simp only [kanbanCollisionDetection, if_neg he, if_neg hcol]
      by_cases hany : (tierCollisions rects pointers corners).any
          (fun c => isColumnId c.id) = true
      · simp only [if_pos hany, hf]
      · simp only [if_neg hany]

/-- Witness for C3 (amended): with only the pointer tier non-empty and no
active column, the resolver returns the pointer-within collisions. -/
theorem tier_fallback_spec_witness :
    tierCollisions [] [⟨"x"⟩] [] = [⟨"x"⟩] ∧
    kanbanCollisionDetection [] [⟨"x"⟩] [] none = tierCollisions [] [⟨"x"⟩] [] := by
  have h := tier_fallback_spec [] [⟨"x"⟩] [] none
  exact ⟨h.2.2.1 rfl (by decide), h.2.2.2.2.1 (Or.inl rfl)⟩

/-- Helper for C5: replaying any non-empty mutation trace whose consecutive
gaps are all below the debounce delay, starting from no pending timer (or a
timer that has not yet expired at the first mutation), produces exactly one
flush, carrying the final payload. -/
theorem processMutations_rapid (delay : Nat) (muts : List (Nat × List Message)) :
    ∀ (hne : muts ≠ []),
      (∀ q ∈ muts, q.2 ≠ ([] : List Message)) →
      muts.Chain' (fun a b => b.1 < a.1 + delay) →
      ∀ pending : Option (Nat × List Message),
        (∀ d q, pending = some (d, q) → (muts.head hne).1 < d) →
        processMutations delay true pending muts = [(muts.getLast hne).2] := by
  induction muts with
  | nil => intro hne; exact absurd rfl hne
  | cons hd tl ih =>
    obtain ⟨t, m⟩ := hd
    intro hne hmem hchain pending hpend
    have hm : m ≠ [] := hmem (t, m) (List.mem_cons_self _ _)
    have hstep : processMutations delay true pending ((t, m) :: tl) =
        processMutations delay true
          (if true && !m.isEmpty then some (t + delay, m) else none) tl := by
      cases pending with
      | none => rfl
      | some dp =>
        obtain ⟨d, p⟩ := dp
        have hlt := hpend d p rfl
        simp only [List.head_cons] at hlt
        calc processMutations delay true (some (d, p)) ((t, m) :: tl)
            = (if d ≤ t then [p] else []) ++ processMutations delay true
                (if true && !m.isEmpty then some (t + delay, m) else none) tl := rfl
          _ = processMutations delay true
                (if true && !m.isEmpty then some (t + delay, m) else none) tl := by
              rw [if_neg (Nat.not_le.mpr hlt), List.nil_append]
    have hpn : (if true && !m.isEmpty then some (t + delay, m) else none) =
        some (t + delay, m) := by
      simp [hm]
    rw [hstep, hpn]
    cases tl with
    | nil => rfl
    | cons hd2 tl2 =>
      obtain ⟨t2, m2⟩ := hd2
      have hlt2 : t2 < t + delay := by
        have h := hchain.rel_head
        simpa using h
      have hres := ih (by simp)
        (fun q hq => hmem q (List.mem_cons_of_mem _ hq))
        hchain.tail
        (some (t + delay, m))
        (by
          intro d q hdq
          injection hdq with hdq
          injection hdq with hd1 hd2x
          subst hd1
          simpa using hlt2)
      have hlast : ((t, m) :: (t2, m2) :: tl2).getLast hne
          = ((t2, m2) :: tl2).getLast (List.cons_ne_nil _ _) :=
        List.getLast_cons (List.cons_ne_nil _ _)
      rw [hres, hlast]

/-- C5: for every non-empty burst of message-list mutations in which each
mutation arrives before the previous 400ms timer fires (gaps strictly below
400ms), every mutation cancels the pending timer and re-arms a fresh one
(the definition of `processMutations`), and exactly one debounced flush
results, carrying the final message sequence. -/
theorem debounce_single_flush (muts : List (Nat × List Message)) (hne : muts ≠ [])
    (hmem : ∀ q ∈ muts, q.2 ≠ ([] : List Message))
    (hchain : muts.Chain' (fun a b => b.1 < a.1 + 400)) :
    processMutations 400 true none muts = [(muts.getLast hne).2] :=
  processMutations_rapid 400 muts hne hmem hchain none (by intro d q h; cases h)

/-- Witness for C5: five rapid mutations (growing transcripts at t = 0,
100, 200, 300, 350 ms) flush exactly once, with the final transcript. -/
theorem debounce_single_flush_witness :
    processMutations 400 true none
      [(0, [{ role := ChatRole.user, content := "a" }]),
       (100, [{ role := ChatRole.user, content := "ab" }]),
       (200, [{ role := ChatRole.user, content := "abc" }]),
       (300, [{ role := ChatRole.user, content := "abcd" }]),
       (350, [{ role := ChatRole.user, content := "abcde" }])] =
      [[{ role := ChatRole.user, content := "abcde" }]] := by
  have h := debounce_single_flush
    [(0, [{ role := ChatRole.user, content := "a" }]),
     (100, [{ role := ChatRole.user, content := "ab" }]),
     (200, [{ role := ChatRole.user, content := "abc" }]),
     (300, [{ role := ChatRole.user, content := "abcd" }]),
     (350, [{ role := ChatRole.user, content := "abcde" }])]
    (by decide) (by decide) (by simp [List.chain'_cons])
  simpa using h

/-- The comparator order is the lexicographic order on `(candRank, candName)`. -/
theorem candLE_iff (a b : Candidate) :
    candLE a b = true ↔
      (candRank a < candRank b ∨ (candRank a = candRank b ∧ candName a ≤ candName b)) := by
  unfold candLE candCompare localeCompare
  by_cases hr : candRank a = candRank b
  · rw [if_neg (by simp [hr])]
    rcases lt_trichotomy (candName a) (candName b) with h | h | h
    · simp [h, le_of_lt h, hr]
    · simp [h, hr, le_of_eq h, lt_irrefl]
    · simp [not_lt_of_gt h, h, hr, not_le.mpr h]
  · rw [if_pos hr]
    rw [decide_eq_true_iff]
    constructor
    · intro h
      left
      omega
    · rintro (h | ⟨h, _⟩)
      · omega
      · exact absurd h hr

/-- The comparator order is transitive. -/
theorem candLE_trans (a b c : Candidate) : candLE a b → candLE b c → candLE a c := by
  simp only [candLE_iff]
  rintro (h1 | ⟨h1, hn1⟩) (h2 | ⟨h2, hn2⟩)
  · exact Or.inl (h1.trans h2)
  · exact Or.inl (by omega)
  · exact Or.inl (by omega)
  · exact Or.inr ⟨h1.trans h2, le_trans hn1 hn2⟩

/-- The comparator order is total. -/
theorem candLE_total (a b : Candidate) : candLE a b || candLE b a := by
  rw [Bool.or_eq_true, candLE_iff, candLE_iff]
  rcases Nat.lt_trichotomy (candRank a) (candRank b) with h | h | h
  · exact Or.inl (Or.inl h)
  · rcases le_total (candName a) (candName b) with hn | hn
    · exact Or.inl (Or.inr ⟨h, hn⟩)
    · exact Or.inr (Or.inr ⟨h.symm, hn⟩)
  · exact Or.inr (Or.inl h)

/-- Equal `(column, name)` fields compare as less-or-equal. -/
theorem candLE_of_eq_keys (a b : Candidate) (hc : a.column = b.column)
    (hn : a.name = b.name) : candLE a b := by
  have hr : candRank a = candRank b := by
    unfold candRank candColumnKey
    rw [hc]
  have hnm : candName a = candName b := by
    unfold candName
    rw [hn]
  rw [candLE_iff]
  exact Or.inr ⟨hr, le_of_eq hnm⟩

/-- `mergeSort` on a two-element list only compares the two elements. -/
theorem mergeSort_two {α : Type} (le : α → α → Bool) (a b : α) :
    List.mergeSort [a, b] le = if le a b then [a, b] else [b, a] := by
  rw [List.mergeSort]
  simp [List.splitInTwo, List.splitAt, List.merge]
  split <;> simp_all [List.splitAt.go, List.mergeSort, List.merge]

/-- C9 (amended): the display sort is a permutation of its input, ordered
by column rank first and then lexicographically by name, and stable:
candidates with equal `(column, name)` keep their relative input order.
The ranks are outreach = 0, follow-up = 1, evaluation = 2, any unknown
non-empty column value = 3, and a missing or empty-string column is
treated as outreach. -/
theorem sortedCandidates_spec (cands : List Candidate) :
    List.Perm (sortedCandidates cands) cands ∧
    (sortedCandidates cands).Pairwise (fun a b =>
      candRank a < candRank b ∨ (candRank a = candRank b ∧ candName a ≤ candName b)) ∧
    (∀ a b : Candidate, a.column = b.column → a.name = b.name →
      List.Sublist [a, b] cands → List.Sublist [a, b] (sortedCandidates cands)) ∧
    (∀ c : Candidate, c.column = some "outreach" → candRank c = 0) ∧
    (∀ c : Candidate, c.column = some "follow-up" → candRank c = 1) ∧
    (∀ c : Candidate, c.column = some "evaluation" → candRank c = 2) ∧
    (∀ c : Candidate, ∀ s : String, c.column = some s → s ≠ "" → s ≠ "outreach" →
      s ≠ "follow-up" → s ≠ "evaluation" → candRank c = 3) ∧
    (∀ c : Candidate, (c.column = none ∨ c.column = some "") → candRank c = 0) := by
  unfold sortedCandidates
  refine ⟨List.mergeSort_perm cands candLE, ?_, ?_, ?_, ?_, ?_, ?_, ?_⟩
  · have h := List.sorted_mergeSort candLE_trans candLE_total cands
    exact h.imp (fun hab => (candLE_iff _ _).mp hab)
  · intro a b hc hn hsub
    exact List.pair_sublist_mergeSort candLE_trans candLE_total
      (candLE_of_eq_keys a b hc hn) hsub
  · intro c h
    simp [candRank, candColumnKey, jsOrStr, h, COLUMN_ORDER]
  · intro c h
    simp [candRank, candColumnKey, jsOrStr, h, COLUMN_ORDER]
  · intro c h
    simp [candRank, candColumnKey, jsOrStr, h, COLUMN_ORDER]
  · intro c s h hs0 hs1 hs2 hs3
    simp [candRank, candColumnKey, jsOrStr, h, hs0, COLUMN_ORDER, hs1, hs2, hs3]
  · intro c h
    rcases h with h | h <;> simp [candRank, candColumnKey, jsOrStr, h, COLUMN_ORDER]

/-- Witness for C9: a `follow-up` candidate ranks 1, and two candidates
with equal `(column, name)` keep their input order through the sort. -/
theorem sortedCandidates_spec_witness :
    candRank { id := "w", name := none, column := some "follow-up", color := none,
               sent_to_client := none, not_pushing_forward := none } = 1 ∧
    List.Sublist
      [{ id := "x", name := some "Ann", column := some "outreach", color := none,
         sent_to_client := none, not_pushing_forward := none },
       { id := "y", name := some "Ann", column := some "outreach", color := none,
         sent_to_client := none, not_pushing_forward := none }]
      (sortedCandidates
        [{ id := "x", name := some "Ann", column := some "outreach", color := none,
           sent_to_client := none, not_pushing_forward := none },
         { id := "y", name := some "Ann", column := some "outreach", color := none,
           sent_to_client := none, not_pushing_forward := none }]) := by
  constructor
  · exact (sortedCandidates_spec []).2.2.2.2.1
      { id := "w", name := none, column := some "follow-up", color := none,
        sent_to_client := none, not_pushing_forward := none } rfl
  · exact (sortedCandidates_spec _).2.2.1 _ _ rfl rfl (List.Sublist.refl _)

/-- Counterexample to C9 as stated: a present-but-empty column value is an
unknown column value, so by the claim it should rank 3 (after evaluation's
rank 2); the code instead defaults it to outreach (rank 0), so with equal
names the sort places it before an evaluation-column candidate, violating
the claimed order. -/
theorem sortedCandidates_unknownColumn_counterexample :
    sortedCandidates
      [{ id := "a", name := some "Zed", column := some "evaluation", color := none,
         sent_to_client := none, not_pushing_forward := none },
       { id := "b", name := some "Zed", column := some "", color := none,
         sent_to_client := none, not_pushing_forward := none }] =
      [{ id := "b", name := some "Zed", column := some "", color := none,
         sent_to_client := none, not_pushing_forward := none },
       { id := "a", name := some "Zed", column := some "evaluation", color := none,
         sent_to_client := none, not_pushing_forward := none }] ∧
    ¬ specSortLE
      { id := "b", name := some "Zed", column := some "", color := none,
        sent_to_client := none, not_pushing_forward := none }
      { id := "a", name := some "Zed", column := some "evaluation", color := none,
        sent_to_client := none, not_pushing_forward := none } := by
  constructor
  · unfold sortedCandidates
    rw [mergeSort_two]
    have h : candLE
        { id := "a", name := some "Zed", column := some "evaluation", color := none,
          sent_to_client := none, not_pushing_forward := none }
        { id := "b", name := some "Zed", column := some "", color := none,
          sent_to_client := none, not_pushing_forward := none } = false := by
      decide
    rw [h]
    simp
  · decide
